import Mathlib

/-!
Verification of the clone-pool subsystem of `python-repoman`:
the reservation ledger (`repoman/roster.py`), the cascading-refresh
cache node (`repoman/depot.py`) and the pool orchestrator
(`repoman/depot_manager.py`), shallowly embedded as pure functions.

The sqlite table `clones` is modelled as a `List Clone` in table order;
`path` is the primary key, so well-formed states have pairwise distinct
paths.  Wall-clock time (`time.time()`) is passed explicitly as a `now`
parameter.  Exceptions are modelled with `Except`.
-/

namespace Repoman

/-- `Clone.FREE` / `Clone.INUSE` status strings of `roster.py`. -/
inductive Status where
  | FREE
  | INUSE
deriving DecidableEq, Repr

/-- One row of the `clones` table (class `Clone` in `roster.py`). -/
structure Clone where
  path : String
  status : Status
  task : String
  task_name : String
  timestamp : Nat
deriving DecidableEq, Repr

/-- Errors raised by the roster.  `conflict`, `noAvailable` and
`alreadyExists` are plain `RosterError`s, `limitReached` is the subclass
`MaxClonesLimitReached`; `keyError` models Python's `KeyError`, which is
not a `RosterError`. -/
inductive RErr where
  | conflict (ownerName : String)
  | noAvailable
  | alreadyExists
  | limitReached
  | keyError (key : String)
deriving DecidableEq, Repr

/-- Which of the modelled exceptions an `except RosterError:` clause catches. -/
def RErr.isRosterError : RErr → Bool
  | .keyError _ => false
  | _ => true

/-- `Roster.__getitem__`: point lookup by path, `KeyError` when absent. -/
def getItem (r : List Clone) (key : String) : Except RErr Clone :=
  match r.find? (fun c => c.path == key) with
  | some c => .ok c
  | none => .error (.keyError key)

/-- `Roster._replace_item_`: sets `value.path := key`,
`value.timestamp := now` and issues `REPLACE INTO clones`.  When the key
is present every row with that path is overwritten in place, otherwise
the row is inserted. -/
def replaceItem (r : List Clone) (key : String) (v : Clone) (now : Nat) : List Clone :=
  let v2 : Clone := { v with path := key, timestamp := now }
  if (r.find? (fun c => c.path == key)).isSome then
    r.map (fun c => if c.path == key then v2 else c)
  else
    r ++ [v2]

/-- `Roster.__setitem__`: the ownership guard — writing over a row whose
current task differs and whose status is not FREE raises
`RosterError('Element already reserved by ...')` — then `_replace_item_`. -/
def setItem (r : List Clone) (key : String) (v : Clone) (now : Nat) :
    Except RErr (List Clone) :=
  match r.find? (fun c => c.path == key) with
  | some prev =>
      if prev.task != v.task && prev.status != Status.FREE then
        .error (.conflict prev.task_name)
      else
        .ok (replaceItem r key v now)
  | none => .ok (replaceItem r key v now)

/-- The UPDATE of `Roster.reserve_clone`: rewrite the (first) row whose
path is selected by `SELECT path FROM clones WHERE status=FREE LIMIT 1`. -/
def reserveUpdate (r : List Clone) (task task_name : String) (now : Nat) : List Clone :=
  match r.find? (fun c => c.status == Status.FREE) with
  | none => r
  | some f =>
      r.map (fun c =>
        if c.path == f.path then
          { c with task := task, status := Status.INUSE,
                   task_name := task_name, timestamp := now }
        else c)

/-- `Roster.reserve_clone`: run the conditional UPDATE, then select the
row matching `(task, task_name, timestamp)`; if none was written raise
`RosterError('No available clones')`. -/
def reserveClone (r : List Clone) (task task_name : String) (now : Nat) :
    Except RErr (Clone × List Clone) :=
  match (reserveUpdate r task task_name now).find? (fun c =>
      c.task == task && c.task_name == task_name && c.timestamp == now) with
  | none => .error .noAvailable
  | some c => .ok (c, reserveUpdate r task task_name now)

/-- `Roster.free_clone`: overwrite the clone's task and set it FREE,
going through the `__setitem__` ownership guard. -/
def freeClone (r : List Clone) (clone : Clone) (task : String) (now : Nat) :
    Except RErr (List Clone) :=
  setItem r clone.path { clone with task := task, status := Status.FREE } now

/-- The staleness test of `Roster._get_old_clones_`:
`now - timestamp > clone_timeout`. -/
def isOld (timeout now : Nat) (c : Clone) : Bool :=
  timeout < now - c.timestamp

/-- `Roster._get_old_clones_`: all rows older than the timeout. -/
def getOldClones (timeout : Nat) (r : List Clone) (now : Nat) : List Clone :=
  r.filter (isOld timeout now)

/-- The loop body of `Roster._clean_old_clones`: free each stale clone
with its own task, propagating any exception. -/
def cleanLoop (stale : List Clone) (acc : List Clone) (now : Nat) :
    Except RErr (List Clone) :=
  match stale with
  | [] => .ok acc
  | c :: rest =>
      match freeClone acc c c.task now with
      | .error e => .error e
      | .ok acc2 => cleanLoop rest acc2 now

/-- `Roster._clean_old_clones`. -/
def cleanOldClones (timeout : Nat) (r : List Clone) (now : Nat) :
    Except RErr (List Clone) :=
  cleanLoop (getOldClones timeout r now) r now

/-- `Roster.add`: reject an existing path, reclaim stale rows, enforce
the `max_clones` count, then insert the new row INUSE and return it. -/
def add (maxClones timeout : Nat) (r : List Clone)
    (path task task_name : String) (now : Nat) :
    Except RErr (Clone × List Clone) :=
  if (r.find? (fun c => c.path == path)).isSome then
    .error .alreadyExists
  else
    match cleanOldClones timeout r now with
    | .error e => .error e
    | .ok r2 =>
        if r2.length = maxClones then
          .error .limitReached
        else
          match setItem r2 path ⟨path, Status.INUSE, task, task_name, 0⟩ now with
          | .error e => .error e
          | .ok r3 =>
              match getItem r3 path with
              | .error e => .error e
              | .ok c => .ok (c, r3)

/-- `Roster.get_available`: rows with status FREE. -/
def getAvailable (r : List Clone) : List Clone :=
  r.filter (fun c => c.status == Status.FREE)

/-- `Roster.get_not_available`: rows with status INUSE. -/
def getNotAvailable (r : List Clone) : List Clone :=
  r.filter (fun c => c.status == Status.INUSE)

/-! ### Depot (`repoman/depot.py`): the cascading-refresh cache node -/

/-- A `Depot`: a path plus its chain of parent caches; the root cache
has no parent (`Depot.__init__` with `parent=None`). -/
inductive DepotT where
  | root (path : String)
  | child (path : String) (parent : DepotT)
deriving DecidableEq, Repr

/-- `Depot.path`. -/
def DepotT.path : DepotT → String
  | .root p => p
  | .child p _ => p

/-- The VCS backend collaborator (`DepotOperations`), reduced to the two
operations the refresh algorithm calls: `check_changeset_availability`
(returns the missing subset) and `grab_changesets` (returns success). -/
structure Backend where
  check : String → List String → List String
  grab : String → String → List String → Bool

/-- A requirement map `{'repository_path': [changeset, ...], ...}` in
dict iteration order. -/
abbrev ReqMap := List (String × List String)

/-- One recorded call to `Backend.grab` (target path, source url,
changesets, returned boolean). -/
structure GrabCall where
  target : String
  source : String
  changesets : List String
  result : Bool
deriving DecidableEq, Repr

/-- A `for url in requirements: if not ops.grab_changesets(...) : return
False` loop, returning the overall result and the trace of calls made. -/
def grabList (B : Backend) (calls : List (String × String × List String)) :
    Bool × List GrabCall :=
  match calls with
  | [] => (true, [])
  | (t, s, cs) :: rest =>
      let res := B.grab t s cs
      if res then
        let r2 := grabList B rest
        (r2.1, ⟨t, s, cs, res⟩ :: r2.2)
      else
        (false, [⟨t, s, cs, res⟩])

/-- `Depot.grab_changesets_from_upstream`: the root grabs each source
directly from its external url; a child delegates to the parent's
`_grab_changesets_to_` (inlined here: parent recursion, then a local
copy of every entry from the parent's path into this depot). -/
def grabFromUpstream (B : Backend) : DepotT → ReqMap → Bool × List GrabCall
  | .root p, reqs =>
      grabList B (reqs.map (fun rc => (p, rc.1, rc.2)))
  | .child p parent, reqs =>
      let r1 := grabFromUpstream B parent reqs
      if r1.1 then
        let r2 := grabList B (reqs.map (fun rc => (p, parent.path, rc.2)))
        (r2.1, r1.2 ++ r2.2)
      else
        (false, r1.2)

/-- `Depot._grab_changesets_to_(requirements, path)` as written in the
source: refresh self from upstream, then copy every entry into `path`
from `self.path`. -/
def grabTo (B : Backend) (d : DepotT) (reqs : ReqMap) (path : String) :
    Bool × List GrabCall :=
  let r1 := grabFromUpstream B d reqs
  if r1.1 then
    let r2 := grabList B (reqs.map (fun rc => (path, d.path, rc.2)))
    (r2.1, r1.2 ++ r2.2)
  else
    (false, r1.2)

/-- `Depot._filter_missing_changesets`: keep, per source, the changesets
reported missing from this depot's path; drop sources with nothing
missing. -/
def filterMissing (B : Backend) (path : String) (reqs : ReqMap) : ReqMap :=
  reqs.filterMap (fun rc =>
    let missing := B.check path rc.2
    if missing.isEmpty then none else some (rc.1, missing))

/-- `Depot.request_refresh`: filter the requirements against this depot,
then grab from upstream; also returns the trace of grab calls. -/
def requestRefresh (B : Backend) (d : DepotT) (reqs : ReqMap) :
    Bool × List GrabCall :=
  grabFromUpstream B d (filterMissing B d.path reqs)

/-- The shape of every trace of grab calls: the overall boolean is the
conjunction of the call results, and a failing call is always the last
one made (the loop aborts on first failure). -/
def okTrace (b : Bool) (tr : List GrabCall) : Prop :=
  b = tr.all (fun c => c.result) ∧
  ((∀ c ∈ tr, c.result = true) ∨
   ∃ pre lst, (∀ c ∈ pre, c.result = true) ∧ lst.result = false ∧
     tr = pre ++ [lst])

/-- A backend on which every changeset is already available everywhere
and every grab succeeds. -/
def allHaveBackend : Backend :=
  ⟨fun _ _ => [], fun _ _ _ => true⟩

/-- A backend on which the child workspace `/w` is missing everything
while every other path (in particular the parent cache) is missing
nothing; every grab succeeds. -/
def childMissingBackend : Backend :=
  ⟨fun p cs => if p = "/w" then cs else [], fun _ _ _ => true⟩

/-! ### DepotManager (`repoman/depot_manager.py`): the pool orchestrator -/

/-- Errors escaping the orchestrator: `CloneProvisionError`, an uncaught
roster exception, or the `AttributeError` from calling `free_clone` on
`None`. -/
inductive MgrErr where
  | provisionError
  | rosterErr (e : RErr)
  | attrErrNone
deriving DecidableEq, Repr

/-- `DepotManager.give_me_depot` (with `requirements=None` and
`default_source=None`).  `provision` models `_provision_new_clone`:
`none` means directory creation or `init_depot` failed (wrapped into
`CloneProvisionError`), `some p` means a fresh directory `p` was
provisioned.  On success the returned depot's parent is the root
cache at `cachePath`. -/
def giveMeDepot (maxClones timeout : Nat) (cachePath : String)
    (r : List Clone) (taskGuid taskName : String)
    (provision : Option String) (now : Nat) :
    Except MgrErr (DepotT × List Clone) :=
  match reserveClone r taskGuid taskName now with
  | .ok (entry, r2) => .ok (.child entry.path (.root cachePath), r2)
  | .error e =>
      if e.isRosterError then
        match provision with
        | none => .error .provisionError
        | some newPath =>
            match add maxClones timeout r newPath taskGuid taskName now with
            | .ok (_, r3) => .ok (.child newPath (.root cachePath), r3)
            | .error e2 => .error (.rosterErr e2)
      else
        .error (.rosterErr e)

/-- `DepotManager.get_not_available_clone`: first INUSE row whose path
matches, else `None`. -/
def getNotAvailableClone (r : List Clone) (path : String) : Option Clone :=
  (getNotAvailable r).find? (fun c => c.path == path)

/-- `DepotManager.free_depot`: `clear_depot(depot.path)` runs first
(the returned list records the clear calls, issued before the roster
lookup), then `free_clone(get_not_available_clone(depot.path), task)`.
When the lookup yields `None`, `free_clone` hits `None.task` — an
`AttributeError`, not a `RosterError`. -/
def freeDepot (r : List Clone) (depotPath taskGuid : String) (now : Nat) :
    List String × Except MgrErr (List Clone) :=
  ([depotPath],
   match getNotAvailableClone r depotPath with
   | none => .error .attrErrNone
   | some c =>
       match freeClone r c taskGuid now with
       | .ok r2 => .ok r2
       | .error e => .error (.rosterErr e))

/-! ### Helper lemmas -/

/-- A successful `find?` splits the list at the found element, with the
predicate false on everything before it. -/
lemma find?_decomp {α : Type} (p : α → Bool) (l : List α) (x : α)
    (h : l.find? p = some x) :
    ∃ l1 l2, l = l1 ++ x :: l2 ∧ ∀ c ∈ l1, p c = false := by
  induction l with
  | nil => simp at h
  | cons a tl ih =>
      by_cases ha : p a
      · rw [List.find?_cons_of_pos _ ha] at h
        cases h
        exact ⟨[], tl, rfl, by simp⟩
      · rw [List.find?_cons_of_neg _ ha] at h
        obtain ⟨l1, l2, rfl, hl1⟩ := ih h
        refine ⟨a :: l1, l2, rfl, ?_⟩
        intro c hc
        rcases List.mem_cons.mp hc with rfl | hc
        · exact Bool.eq_false_iff.mpr ha
        · exact hl1 c hc

/-- From a successful `getItem`, recover the underlying `find?`. -/
lemma getItem_ok_find? {r : List Clone} {key : String} {c : Clone}
    (h : getItem r key = .ok c) :
    r.find? (fun x => x.path == key) = some c := by
  unfold getItem at h
  cases hf : r.find? (fun x => x.path == key) with
  | none => rw [hf] at h; cases h
  | some c' => rw [hf] at h; cases h; rfl

/-- A successful `setItem` is exactly a `replaceItem`. -/
lemma setItem_ok {r : List Clone} {key : String} {v : Clone} {now : Nat}
    {r2 : List Clone} (h : setItem r key v now = .ok r2) :
    r2 = replaceItem r key v now := by
  unfold setItem at h
  split at h
  · split at h
    · exact Except.noConfusion h
    · cases h; rfl
  · cases h; rfl

/-- Overwriting a present key in place: the first row matching the key
afterwards is the written value. -/
lemma find?_map_update (r : List Clone) (key : String) (v2 : Clone)
    (hv : v2.path = key)
    (h : (r.find? (fun c => c.path == key)).isSome) :
    (r.map (fun c => if c.path == key then v2 else c)).find?
      (fun c => c.path == key) = some v2 := by
  induction r with
  | nil => simp at h
  | cons a tl ih =>
      by_cases ha : (a.path == key) = true
      · simp only [List.map_cons, if_pos ha]
        exact List.find?_cons_of_pos _ (by simp [hv])
      · simp only [List.map_cons, if_neg ha]
        rw [List.find?_cons_of_neg _ (by simp [ha])]
        apply ih
        rw [List.find?_cons_of_neg _ (by simp [ha])] at h
        exact h

/-- `getItem` after replacing a present key returns the stored value
(with path and timestamp overwritten, as `_replace_item_` does). -/
lemma getItem_replaceItem (r : List Clone) (key : String) (v : Clone) (now : Nat)
    (h : (r.find? (fun c => c.path == key)).isSome) :
    getItem (replaceItem r key v now) key =
      .ok { v with path := key, timestamp := now } := by
  unfold replaceItem getItem
  rw [if_pos h, find?_map_update r key _ rfl h]

/-- `replaceItem` on a present key preserves the column of paths. -/
lemma replaceItem_map_path (r : List Clone) (key : String) (v : Clone) (now : Nat)
    (h : (r.find? (fun c => c.path == key)).isSome) :
    (replaceItem r key v now).map Clone.path = r.map Clone.path := by
  unfold replaceItem
  rw [if_pos h, List.map_map]
  apply List.map_congr_left
  intro c _
  by_cases hc : (c.path == key) = true
  · simp only [Function.comp_apply, if_pos hc]
    exact ((beq_iff_eq).mp hc).symm
  · simp only [Function.comp_apply, if_neg hc]

/-! ### C2: ownership guard on `free` -/

/-- **C2.** For a stored record `c` with status INUSE owned by `c.task`,
`free` by any other task `B` fails with the `Conflict` error (leaving the
ledger unchanged, as no write happens on the error path); and for a
stored record with status FREE, `free` succeeds for any task, storing the
record back FREE with a fresh timestamp. -/
theorem freeClone_ownership (r : List Clone) (c : Clone) (now : Nat)
    (h : getItem r c.path = .ok c) :
    (∀ B, c.status = Status.INUSE → B ≠ c.task →
        freeClone r c B now = .error (.conflict c.task_name)) ∧
    (c.status = Status.FREE → ∀ t, ∃ r2,
        freeClone r c t now = .ok r2 ∧
        getItem r2 c.path = .ok ⟨c.path, Status.FREE, t, c.task_name, now⟩) := by
  have hf := getItem_ok_find? h
  constructor
  · intro B hstat hne
    unfold freeClone setItem
    rw [hf]
    have h1 : (c.task != B) = true := bne_iff_ne.mpr (Ne.symm hne)
    have h2 : (c.status != Status.FREE) = true := by
      rw [hstat]; rfl
    simp only [h1, h2, Bool.and_self, if_pos]
  · intro hstat t
    refine ⟨replaceItem r c.path { c with task := t, status := Status.FREE } now,
            ?_, ?_⟩
    · unfold freeClone setItem
      rw [hf]
      have h2 : (c.status != Status.FREE) = false := by
        rw [hstat]; rfl
      simp [h2]
    · have := getItem_replaceItem r c.path
        { c with task := t, status := Status.FREE } now (by rw [hf]; rfl)
      exact this

/-- Witness for C2 at a one-row ledger. -/
theorem freeClone_ownership_witness :
    freeClone [⟨"/a", Status.INUSE, "A", "nA", 3⟩]
        ⟨"/a", Status.INUSE, "A", "nA", 3⟩ "B" 5
      = .error (.conflict "nA") :=
  (freeClone_ownership [⟨"/a", Status.INUSE, "A", "nA", 3⟩]
      ⟨"/a", Status.INUSE, "A", "nA", 3⟩ 5 rfl).1 "B" rfl (by decide)

/-! ### C5, C6, C7: the cascading refresh -/

/-- Nothing missing from this depot means the filtered map is empty. -/
lemma filterMissing_eq_nil (B : Backend) (path : String) (reqs : ReqMap)
    (h : ∀ rc ∈ reqs, B.check path rc.2 = []) :
    filterMissing B path reqs = [] := by
  unfold filterMissing ReqMap at *
  induction reqs with
  | nil => rfl
  | cons rc rest ih =>
      rw [List.filterMap_cons]
      have hrc : B.check path rc.2 = [] := h rc (List.mem_cons_self rc rest)
      simp only [hrc, List.isEmpty_nil, if_pos]
      exact ih (fun x hx => h x (List.mem_cons_of_mem rc hx))

/-- Defining equation of `grabFromUpstream` at the root. -/
lemma grabFromUpstream_root (B : Backend) (p : String) (reqs : ReqMap) :
    grabFromUpstream B (.root p) reqs =
      grabList B (reqs.map (fun rc => (p, rc.1, rc.2))) := rfl

/-- Defining equation of `grabFromUpstream` at a child node. -/
lemma grabFromUpstream_child (B : Backend) (p : String) (parent : DepotT)
    (reqs : ReqMap) :
    grabFromUpstream B (.child p parent) reqs =
      if (grabFromUpstream B parent reqs).1 then
        ((grabList B (reqs.map (fun rc => (p, DepotT.path parent, rc.2)))).1,
         (grabFromUpstream B parent reqs).2 ++
           (grabList B (reqs.map (fun rc => (p, DepotT.path parent, rc.2)))).2)
      else
        (false, (grabFromUpstream B parent reqs).2) := rfl

/-- An empty requirement map grabs nothing, at every level of the chain. -/
lemma grabFromUpstream_nil (B : Backend) (d : DepotT) :
    grabFromUpstream B d [] = (true, []) := by
  induction d with
  | root p => rfl
  | child p parent ih => rw [grabFromUpstream_child, ih]; rfl

/-- **C5.** Refresh is idempotent: when `check_changeset_availability`
reports nothing missing from this workspace for any source of the
requirement map, `request_refresh` performs zero `grab_changesets` calls
and returns true.  In particular a second refresh with the same map on
an unchanged upstream fetches nothing. -/
theorem requestRefresh_idem (B : Backend) (d : DepotT) (reqs : ReqMap)
    (h : ∀ rc ∈ reqs, B.check (DepotT.path d) rc.2 = []) :
    requestRefresh B d reqs = (true, []) := by
  unfold requestRefresh
  rw [filterMissing_eq_nil B (DepotT.path d) reqs h, grabFromUpstream_nil]

/-- Witness for C5: a satisfied map on a two-level chain fetches nothing. -/
theorem requestRefresh_idem_witness :
    requestRefresh allHaveBackend (.child "/w" (.root "/cache"))
        [("src", ["c1", "c2"])] = (true, []) :=
  requestRefresh_idem allHaveBackend (.child "/w" (.root "/cache"))
    [("src", ["c1", "c2"])] (by intro rc _; rfl)

/-- When every grab succeeds, a grab loop issues exactly one call per
entry, in order, and succeeds. -/
lemma grabList_all_true (B : Backend)
    (h : ∀ t s cs, B.grab t s cs = true) :
    ∀ calls : List (String × String × List String),
      grabList B calls =
        (true, calls.map (fun e => ⟨e.1, e.2.1, e.2.2, true⟩)) := by
  intro calls
  induction calls with
  | nil => rfl
  | cons e rest ih =>
      obtain ⟨t, s, cs⟩ := e
      simp [grabList, h t s cs, ih]

/-- **C6 (amended).** Cascading refresh through a parent, as the code
actually behaves: the child filters the requirements against *its own*
path only, then hands the same filtered map to the parent's grab step
*without re-filtering against the parent* — the root parent fetches
every changeset of the filtered map from its external source, even
changesets the parent already has — and afterwards those same changesets
are copied from the parent's local path into the child; the child never
contacts the external source directly (every call targeting the child
has the parent's path as source). -/
theorem cascade_refresh (B : Backend) (pp wp : String) (reqs : ReqMap)
    (hgrab : ∀ t s cs, B.grab t s cs = true) :
    requestRefresh B (.child wp (.root pp)) reqs =
      (true,
       ((filterMissing B wp reqs).map (fun rc => ⟨pp, rc.1, rc.2, true⟩)) ++
       ((filterMissing B wp reqs).map (fun rc => ⟨wp, pp, rc.2, true⟩))) := by
  have hM : requestRefresh B (.child wp (.root pp)) reqs
      = grabFromUpstream B (.child wp (.root pp)) (filterMissing B wp reqs) := rfl
  rw [hM, grabFromUpstream_child, grabFromUpstream_root,
      grabList_all_true B hgrab, grabList_all_true B hgrab, if_pos rfl,
      List.map_map, List.map_map]
  rfl

/-- Witness for C6 (amended) on a concrete chain. -/
theorem cascade_refresh_witness :
    requestRefresh childMissingBackend (.child "/w" (.root "/cache"))
        [("src", ["c1"])] =
      (true,
       ((filterMissing childMissingBackend "/w" [("src", ["c1"])]).map
          (fun rc => ⟨"/cache", rc.1, rc.2, true⟩)) ++
       ((filterMissing childMissingBackend "/w" [("src", ["c1"])]).map
          (fun rc => ⟨"/w", "/cache", rc.2, true⟩))) :=
  cascade_refresh childMissingBackend "/cache" "/w" [("src", ["c1"])]
    (fun _ _ _ => rfl)

/-- Counterexample for C6 as claimed: with a backend on which the parent
cache is missing nothing (`check "/cache" ["c1"] = []`), the parent
nevertheless performs an external fetch of `c1` from `src` — it does not
"fetch only the changesets it is missing". -/
theorem cascade_counterexample :
    childMissingBackend.check "/cache" ["c1"] = [] ∧
    (requestRefresh childMissingBackend (.child "/w" (.root "/cache"))
        [("src", ["c1"])]).2 =
      [⟨"/cache", "src", ["c1"], true⟩, ⟨"/w", "/cache", ["c1"], true⟩] := by
  constructor
  · rfl
  · rfl

/-- Defining equation of `grabList` on a cons cell. -/
lemma grabList_cons (B : Backend) (t s : String) (cs : List String)
    (rest : List (String × String × List String)) :
    grabList B ((t, s, cs) :: rest) =
      if B.grab t s cs then
        ((grabList B rest).1, ⟨t, s, cs, B.grab t s cs⟩ :: (grabList B rest).2)
      else
        (false, [⟨t, s, cs, B.grab t s cs⟩]) := rfl

/-- Every grab loop produces a well-shaped trace. -/
lemma grabList_okTrace (B : Backend)
    (calls : List (String × String × List String)) :
    okTrace (grabList B calls).1 (grabList B calls).2 := by
  induction calls with
  | nil => exact ⟨rfl, Or.inl (fun c hc => absurd hc (List.not_mem_nil c))⟩
  | cons e rest ih =>
      obtain ⟨t, s, cs⟩ := e
      obtain ⟨ih1, ih2⟩ := ih
      rw [grabList_cons]
      cases hg : B.grab t s cs with
      | true =>
          rw [if_pos rfl]
          constructor
          · show (grabList B rest).1
                = List.all (⟨t, s, cs, true⟩ :: (grabList B rest).2)
                    (fun c => c.result)
            rw [List.all_cons, ih1]
            rfl
          · rcases ih2 with h | ⟨pre, lst, hpre, hlst, heq⟩
            · refine Or.inl ?_
              intro c hc
              rcases List.mem_cons.mp hc with rfl | hc
              · rfl
              · exact h c hc
            · refine Or.inr ⟨⟨t, s, cs, true⟩ :: pre, lst, ?_, hlst, ?_⟩
              · intro c hc
                rcases List.mem_cons.mp hc with rfl | hc
                · rfl
                · exact hpre c hc
              · show (⟨t, s, cs, true⟩ : GrabCall) :: (grabList B rest).2
                    = (⟨t, s, cs, true⟩ : GrabCall) :: pre ++ [lst]
                rw [heq, List.cons_append]
      | false =>
          rw [if_neg (fun h => Bool.false_ne_true h)]
          exact ⟨rfl, Or.inr ⟨[], ⟨t, s, cs, false⟩, by simp, rfl, rfl⟩⟩

/-- A successful trace followed by a well-shaped one is well-shaped. -/
lemma okTrace_append {b : Bool} {t1 t2 : List GrabCall}
    (h1 : okTrace true t1) (h2 : okTrace b t2) : okTrace b (t1 ++ t2) := by
  obtain ⟨h1a, _⟩ := h1
  have hall : ∀ c ∈ t1, c.result = true := fun c hc =>
    List.all_eq_true.mp h1a.symm c hc
  obtain ⟨h2a, h2b⟩ := h2
  constructor
  · rw [List.all_append, ← h1a, ← h2a, Bool.true_and]
  · rcases h2b with h | ⟨pre, lst, hpre, hlst, heq⟩
    · refine Or.inl ?_
      intro c hc
      rcases List.mem_append.mp hc with hc | hc
      · exact hall c hc
      · exact h c hc
    · refine Or.inr ⟨t1 ++ pre, lst, ?_, hlst, by rw [heq, List.append_assoc]⟩
      intro c hc
      rcases List.mem_append.mp hc with hc | hc
      · exact hall c hc
      · exact hpre c hc

/-- `grab_changesets_from_upstream` produces a well-shaped trace at
every level of the cache chain. -/
lemma grabFromUpstream_okTrace (B : Backend) (d : DepotT) (reqs : ReqMap) :
    okTrace (grabFromUpstream B d reqs).1 (grabFromUpstream B d reqs).2 := by
  induction d generalizing reqs with
  | root p => exact grabList_okTrace B _
  | child p parent ih =>
      rw [grabFromUpstream_child]
      by_cases hb : (grabFromUpstream B parent reqs).1 = true
      · rw [if_pos hb]
        have hpar := ih reqs
        rw [hb] at hpar
        exact okTrace_append hpar (grabList_okTrace B _)
      · rw [if_neg hb]
        have hpar := ih reqs
        rw [Bool.not_eq_true] at hb
        rw [hb] at hpar
        exact hpar

/-- **C7.** Refresh reports fetch failure as a boolean: the returned
boolean is true exactly when every invoked `grab_changesets` returned
true, and the first failing grab aborts the remaining fetches (in the
call trace every call is successful, except possibly the final one). -/
theorem requestRefresh_failure_bool (B : Backend) (d : DepotT) (reqs : ReqMap) :
    (requestRefresh B d reqs).1 =
        ((requestRefresh B d reqs).2.all (fun c => c.result)) ∧
    ((∀ c ∈ (requestRefresh B d reqs).2, c.result = true) ∨
     ∃ pre lst, (∀ c ∈ pre, c.result = true) ∧ lst.result = false ∧
        (requestRefresh B d reqs).2 = pre ++ [lst]) := by
  have h := grabFromUpstream_okTrace B d (filterMissing B (DepotT.path d) reqs)
  unfold okTrace at h
  exact h

/-! ### C1, C9: reservation -/

/-- In a ledger whose path column is duplicate-free, splitting at a row
makes the row's path distinct from every other row's. -/
lemma nodup_split_paths {l1 l2 : List Clone} {f : Clone}
    (h : (((l1 ++ f :: l2).map Clone.path)).Nodup) :
    (∀ c ∈ l1, c.path ≠ f.path) ∧ (∀ c ∈ l2, c.path ≠ f.path) := by
  rw [List.map_append, List.map_cons, List.nodup_append] at h
  obtain ⟨_, h2, hdisj⟩ := h
  constructor
  · intro c hc heq
    exact hdisj (List.mem_map_of_mem Clone.path hc)
      (by rw [heq]; exact List.mem_cons_self _ _)
  · intro c hc heq
    exact (List.nodup_cons.mp h2).1
      (by rw [← heq]; exact List.mem_map_of_mem Clone.path hc)

/-- A path-keyed in-place update touches exactly the row it names. -/
lemma map_update_split (l1 l2 : List Clone) (f : Clone) (g : Clone → Clone)
    (h1 : ∀ c ∈ l1, c.path ≠ f.path) (h2 : ∀ c ∈ l2, c.path ≠ f.path) :
    (l1 ++ f :: l2).map (fun c => if c.path == f.path then g c else c)
      = l1 ++ g f :: l2 := by
  rw [List.map_append, List.map_cons]
  congr 1
  · have : l1.map (fun c => if c.path == f.path then g c else c) = l1.map id :=
      List.map_congr_left (fun c hc => by rw [if_neg (by simp [h1 c hc])]; rfl)
    rw [this, List.map_id]
  · congr 1
    · rw [if_pos (by simp)]
    · have : l2.map (fun c => if c.path == f.path then g c else c) = l2.map id :=
        List.map_congr_left (fun c hc => by rw [if_neg (by simp [h2 c hc])]; rfl)
      rw [this, List.map_id]

/-- Reduction of `reserveUpdate` when the FREE-row select finds a row. -/
lemma reserveUpdate_found {r : List Clone} {task nm : String} {now : Nat}
    {f : Clone}
    (hfind : r.find? (fun c => c.status == Status.FREE) = some f) :
    reserveUpdate r task nm now = r.map (fun c =>
      if c.path == f.path then
        { c with task := task, status := Status.INUSE,
                 task_name := nm, timestamp := now }
      else c) := by
  unfold reserveUpdate
  rw [hfind]

/-- When a FREE row exists, `reserve_clone` rewrites exactly the first
one to INUSE under the caller's identity and fresh timestamp, and the
post-update select returns precisely that row. -/
lemma reserveClone_ok (r : List Clone) (task nm : String) (now : Nat)
    (hnodup : (r.map Clone.path).Nodup)
    (hfresh : ∀ c ∈ r, c.timestamp < now)
    {f : Clone} (hfind : r.find? (fun c => c.status == Status.FREE) = some f) :
    ∃ l1 l2, r = l1 ++ f :: l2 ∧ (∀ c ∈ l1, c.status ≠ Status.FREE) ∧
      reserveClone r task nm now =
        .ok (⟨f.path, Status.INUSE, task, nm, now⟩,
             l1 ++ ⟨f.path, Status.INUSE, task, nm, now⟩ :: l2) := by
  obtain ⟨l1, l2, heq, hl1⟩ := find?_decomp _ _ _ hfind
  subst heq
  obtain ⟨hc1, hc2⟩ := nodup_split_paths hnodup
  have hupd : reserveUpdate (l1 ++ f :: l2) task nm now
      = l1 ++ (⟨f.path, Status.INUSE, task, nm, now⟩ : Clone) :: l2 := by
    rw [reserveUpdate_found hfind, map_update_split l1 l2 f
      (fun c => { c with task := task, status := Status.INUSE,
                         task_name := nm, timestamp := now }) hc1 hc2]
  refine ⟨l1, l2, rfl, fun c hc => by simpa using hl1 c hc, ?_⟩
  have hsel : (l1 ++ (⟨f.path, Status.INUSE, task, nm, now⟩ : Clone) :: l2).find?
      (fun c => c.task == task && c.task_name == nm && c.timestamp == now)
      = some ⟨f.path, Status.INUSE, task, nm, now⟩ := by
    rw [List.find?_append]
    have hnone : l1.find?
        (fun c => c.task == task && c.task_name == nm && c.timestamp == now)
        = none := by
      refine List.find?_eq_none.mpr (fun x hx => ?_)
      have hts : x.timestamp ≠ now :=
        Nat.ne_of_lt (hfresh x (List.mem_append_left _ hx))
      simp [hts]
    rw [hnone, List.find?_cons_of_pos _ (by simp)]
    rfl
  unfold reserveClone
  rw [hupd, hsel]

/-- Without a FREE row, and with the clock strictly ahead of every stored
timestamp, `reserve_clone` raises `No available clones`. -/
lemma reserveClone_noFree (r : List Clone) (task nm : String) (now : Nat)
    (hno : ∀ c ∈ r, c.status ≠ Status.FREE)
    (hfresh : ∀ c ∈ r, c.timestamp ≠ now) :
    reserveClone r task nm now = .error .noAvailable := by
  have hupd : reserveUpdate r task nm now = r := by
    unfold reserveUpdate
    rw [List.find?_eq_none.mpr (fun x hx => by simp [hno x hx])]
  unfold reserveClone
  rw [hupd, List.find?_eq_none.mpr (fun x hx => by simp [hfresh x hx])]

/-- **C1.** On a well-formed ledger (distinct paths, clock strictly ahead
of every stored timestamp): if some record is FREE, `reserve_clone`
updates exactly one FREE record to INUSE with the caller's task, task
name and the fresh timestamp and returns that record; if no record is
FREE it raises the `No available clones` `RosterError`. -/
theorem reserveClone_spec (r : List Clone) (task nm : String) (now : Nat)
    (hnodup : (r.map Clone.path).Nodup)
    (hfresh : ∀ c ∈ r, c.timestamp < now) :
    ((∃ c ∈ r, c.status = Status.FREE) →
      ∃ l1 f l2, r = l1 ++ f :: l2 ∧ f.status = Status.FREE ∧
        reserveClone r task nm now =
          .ok (⟨f.path, Status.INUSE, task, nm, now⟩,
               l1 ++ ⟨f.path, Status.INUSE, task, nm, now⟩ :: l2)) ∧
    ((∀ c ∈ r, c.status ≠ Status.FREE) →
      reserveClone r task nm now = .error .noAvailable) := by
  constructor
  · rintro ⟨c, hc, hst⟩
    have hsome : (r.find? (fun c => c.status == Status.FREE)).isSome :=
      List.find?_isSome.mpr ⟨c, hc, by simp [hst]⟩
    obtain ⟨f, hf⟩ := Option.isSome_iff_exists.mp hsome
    have hfree : f.status = Status.FREE := by simpa using List.find?_some hf
    obtain ⟨l1, l2, heq, _, hres⟩ := reserveClone_ok r task nm now hnodup hfresh hf
    exact ⟨l1, f, l2, heq, hfree, hres⟩
  · intro hno
    exact reserveClone_noFree r task nm now hno
      (fun c hc => Nat.ne_of_lt (hfresh c hc))

/-- Witness for C1 on a one-row FREE ledger. -/
theorem reserveClone_spec_witness :
    ∃ l1 f l2,
      ([⟨"/a", Status.FREE, "t0", "n0", 0⟩] : List Clone) = l1 ++ f :: l2 ∧
      f.status = Status.FREE ∧
      reserveClone [⟨"/a", Status.FREE, "t0", "n0", 0⟩] "t1" "n1" 5 =
        .ok (⟨f.path, Status.INUSE, "t1", "n1", 5⟩,
             l1 ++ ⟨f.path, Status.INUSE, "t1", "n1", 5⟩ :: l2) :=
  (reserveClone_spec [⟨"/a", Status.FREE, "t0", "n0", 0⟩] "t1" "n1" 5
      (by decide) (by decide)).1
    ⟨⟨"/a", Status.FREE, "t0", "n0", 0⟩, by decide, rfl⟩

/-- **C9.** Frame property of `reserve_clone`: it modifies at most one
record — the FREE record it reserves, all other rows keeping every field
— and the conditional UPDATE it commits is the identity on the ledger
when no FREE record exists. -/
theorem reserveClone_frame (r : List Clone) (task nm : String) (now : Nat)
    (hnodup : (r.map Clone.path).Nodup) :
    (∀ f r2, reserveClone r task nm now = .ok (f, r2) →
        r2 = r ∨ ∃ l1 c l2, r = l1 ++ c :: l2 ∧ c.status = Status.FREE ∧
          r2 = l1 ++ (⟨c.path, Status.INUSE, task, nm, now⟩ : Clone) :: l2) ∧
    ((∀ c ∈ r, c.status ≠ Status.FREE) → reserveUpdate r task nm now = r) := by
  constructor
  · intro f r2 hok
    have hr2 : r2 = reserveUpdate r task nm now := by
      unfold reserveClone at hok
      split at hok
      · exact Except.noConfusion hok
      · exact (congrArg Prod.snd (Except.ok.inj hok)).symm
    cases hfind : r.find? (fun c => c.status == Status.FREE) with
    | none =>
        left
        rw [hr2]
        unfold reserveUpdate
        rw [hfind]
    | some g =>
        right
        have hfree : g.status = Status.FREE := by
          simpa using List.find?_some hfind
        obtain ⟨l1, l2, heq, _⟩ := find?_decomp _ _ _ hfind
        subst heq
        obtain ⟨hc1, hc2⟩ := nodup_split_paths hnodup
        refine ⟨l1, g, l2, rfl, hfree, ?_⟩
        rw [hr2, reserveUpdate_found hfind, map_update_split l1 l2 g
          (fun c => { c with task := task, status := Status.INUSE,
                             task_name := nm, timestamp := now }) hc1 hc2]
  · intro hno
    unfold reserveUpdate
    rw [List.find?_eq_none.mpr (fun x hx => by simp [hno x hx])]

/-- Witness for C9: the committed UPDATE leaves an all-INUSE ledger
untouched. -/
theorem reserveClone_frame_witness :
    reserveUpdate [⟨"/a", Status.INUSE, "t1", "n1", 3⟩] "t2" "n2" 9
      = [⟨"/a", Status.INUSE, "t1", "n1", 3⟩] :=
  (reserveClone_frame [⟨"/a", Status.INUSE, "t1", "n1", 3⟩] "t2" "n2" 9
      (by decide)).2 (by decide)

/-! ### C3: the capacity bound of `add` -/

/-- Absence of a path in the table is absence from the path column. -/
lemma find?_path_none_iff (r : List Clone) (key : String) :
    r.find? (fun c => c.path == key) = none ↔ key ∉ r.map Clone.path := by
  rw [List.find?_eq_none]
  constructor
  · intro h hmem
    obtain ⟨c, hc, hpath⟩ := List.mem_map.mp hmem
    exact h c hc (by simp [hpath])
  · intro h c hc hbeq
    exact h (List.mem_map.mpr ⟨c, hc, by simpa using hbeq⟩)

/-- The stale-cleaning loop never changes the path column: every free it
performs replaces a row in place. -/
lemma cleanLoop_paths (now : Nat) :
    ∀ (stale acc r2 : List Clone),
      (∀ c ∈ stale, c.path ∈ acc.map Clone.path) →
      cleanLoop stale acc now = .ok r2 →
      r2.map Clone.path = acc.map Clone.path := by
  intro stale
  induction stale with
  | nil =>
      intro acc r2 _ h
      cases h
      rfl
  | cons c rest ih =>
      intro acc r2 hmem h
      unfold cleanLoop at h
      cases hfc : freeClone acc c c.task now with
      | error e => rw [hfc] at h; exact Except.noConfusion h
      | ok acc2 =>
          rw [hfc] at h
          have hsome : (acc.find? (fun x => x.path == c.path)).isSome := by
            rw [List.find?_isSome]
            obtain ⟨a, ha, hpa⟩ :=
              List.mem_map.mp (hmem c (List.mem_cons_self c rest))
            exact ⟨a, ha, by simp [hpa]⟩
          have hpaths : acc2.map Clone.path = acc.map Clone.path := by
            rw [setItem_ok hfc]
            exact replaceItem_map_path acc c.path _ now hsome
          rw [← hpaths]
          exact ih acc2 r2
            (fun x hx => by
              rw [hpaths]; exact hmem x (List.mem_cons_of_mem c hx)) h

/-- `_clean_old_clones` preserves the path column of the ledger. -/
lemma cleanOldClones_paths {T : Nat} {r : List Clone} {now : Nat}
    {r2 : List Clone} (h : cleanOldClones T r now = .ok r2) :
    r2.map Clone.path = r.map Clone.path := by
  unfold cleanOldClones at h
  exact cleanLoop_paths now (getOldClones T r now) r r2
    (fun c hc =>
      List.mem_map_of_mem Clone.path (List.mem_of_mem_filter hc)) h

/-- With no stale row, `_clean_old_clones` is the identity. -/
lemma cleanOldClones_noStale {T : Nat} {r : List Clone} {now : Nat}
    (h : ∀ c ∈ r, isOld T now c = false) :
    cleanOldClones T r now = .ok r := by
  unfold cleanOldClones getOldClones
  rw [List.filter_eq_nil_iff.mpr (fun c hc => by simp [h c hc])]
  rfl

/-- **C3.** Capacity: on a ledger within the `max_clones` bound, a
successful `add` keeps the ledger within the bound; and the (N+1)-th
add of a new path on a full pool with no stale and no free record fails
with `MaxClonesLimitReached` without inserting the record. -/
theorem add_capacity (M T : Nat) (r : List Clone) (path task nm : String)
    (now : Nat) :
    (∀ res r2, r.length ≤ M →
        add M T r path task nm now = .ok (res, r2) → r2.length ≤ M) ∧
    (r.length = M → (∀ c ∈ r, isOld T now c = false) →
        (∀ c ∈ r, c.status = Status.INUSE) → (∀ c ∈ r, c.path ≠ path) →
        add M T r path task nm now = .error .limitReached) := by
  constructor
  · intro res r2 hlen hok
    unfold add at hok
    split at hok
    · exact Except.noConfusion hok
    · rename_i hpres
      split at hok
      · exact Except.noConfusion hok
      · rename_i rc hclean
        split at hok
        · exact Except.noConfusion hok
        · rename_i hM
          have hrcpaths := cleanOldClones_paths hclean
          have hnone : r.find? (fun c => c.path == path) = none :=
            Option.not_isSome_iff_eq_none.mp hpres
          have hnotin : path ∉ r.map Clone.path :=
            (find?_path_none_iff r path).mp hnone
          have hrcnone : rc.find? (fun c => c.path == path) = none :=
            (find?_path_none_iff rc path).mpr (by rw [hrcpaths]; exact hnotin)
          have hrclen : rc.length = r.length := by
            have := congrArg List.length hrcpaths
            simpa using this
          split at hok
          · exact Except.noConfusion hok
          · rename_i r3 hset
            have hr3 : r3 = rc ++ [⟨path, Status.INUSE, task, nm, now⟩] := by
              rw [setItem_ok hset]
              unfold replaceItem
              rw [if_neg (by simp [hrcnone])]
            split at hok
            · exact Except.noConfusion hok
            · rename_i c hget
              have hr2 : r2 = r3 :=
                (congrArg Prod.snd (Except.ok.inj hok)).symm
              rw [hr2, hr3, List.length_append]
              simp only [List.length_cons, List.length_nil]
              omega
  · intro hlen hstale _hINUSE hpath
    have hnone : r.find? (fun c => c.path == path) = none :=
      (find?_path_none_iff r path).mpr (by
        intro hmem
        obtain ⟨c, hc, hcp⟩ := List.mem_map.mp hmem
        exact hpath c hc hcp)
    unfold add
    rw [if_neg (by simp [hnone])]
    rw [cleanOldClones_noStale hstale]
    show (if r.length = M then (Except.error RErr.limitReached) else _)
        = Except.error RErr.limitReached
    rw [if_pos hlen]

/-- Witness for C3: a one-slot pool already holding one fresh INUSE row
rejects the second add. -/
theorem add_capacity_witness :
    add 1 1800 [⟨"/a", Status.INUSE, "t1", "n1", 100⟩] "/b" "t2" "n2" 200
      = .error .limitReached :=
  (add_capacity 1 1800 [⟨"/a", Status.INUSE, "t1", "n1", 100⟩] "/b" "t2" "n2"
      200).2 rfl (by decide) (by decide) (by decide)

/-! ### C4: staleness reclaim -/

/-- Reduction of `setItem` when the key is present. -/
lemma setItem_found {r : List Clone} {key : String} {v : Clone} {now : Nat}
    {prev : Clone} (hf : r.find? (fun c => c.path == key) = some prev) :
    setItem r key v now =
      if prev.task != v.task && prev.status != Status.FREE then
        .error (.conflict prev.task_name)
      else
        .ok (replaceItem r key v now) := by
  unfold setItem
  rw [hf]

/-- Counterexample to C4 as claimed: on a ledger whose only record is
INUSE and stale (timestamp 0, clock 10000, timeout 1800), `reserve_clone`
by a new task raises `No available clones` instead of returning the stale
record — `reserve_clone` only rewrites rows with `status = FREE` and
never runs the stale-cleaning step. -/
theorem reserveClone_stale_counterexample :
    isOld 1800 10000 ⟨"/t", Status.INUSE, "t1", "n1", 0⟩ = true ∧
    reserveClone [⟨"/t", Status.INUSE, "t1", "n1", 0⟩] "t2" "n2" 10000
      = .error .noAvailable :=
  ⟨rfl, rfl⟩

/-- **C4 (amended).** For a ledger whose only record is INUSE with a
timestamp older than `clone_timeout`: `reserve_clone` alone still raises
`No available clones`; the stale record is instead reclaimed by the
ledger's stale-cleaning step (which `add` runs), which force-frees it
keeping the old owner; after that, a reserve by a new task returns that
record's path with ownership reassigned to the new task, and the old
owner's later `free` call for the record fails with `Conflict`. -/
theorem reserveClone_stale_reclaim (p A nA B nB : String)
    (ts T now now2 : Nat)
    (hstale : isOld T now ⟨p, Status.INUSE, A, nA, ts⟩ = true)
    (hAB : A ≠ B) :
    reserveClone [⟨p, Status.INUSE, A, nA, ts⟩] B nB now2
      = .error .noAvailable ∧
    cleanOldClones T [⟨p, Status.INUSE, A, nA, ts⟩] now
      = .ok [⟨p, Status.FREE, A, nA, now⟩] ∧
    reserveClone [⟨p, Status.FREE, A, nA, now⟩] B nB now2
      = .ok (⟨p, Status.INUSE, B, nB, now2⟩,
             [⟨p, Status.INUSE, B, nB, now2⟩]) ∧
    freeClone [⟨p, Status.INUSE, B, nB, now2⟩]
        ⟨p, Status.INUSE, B, nB, now2⟩ A now2
      = .error (.conflict nB) := by
  have hABbeq : (A == B) = false := beq_eq_false_iff_ne.mpr hAB
  have hBAbne : (B != A) = true := bne_iff_ne.mpr (Ne.symm hAB)
  refine ⟨?_, ?_, ?_, ?_⟩
  · have hupd : reserveUpdate [⟨p, Status.INUSE, A, nA, ts⟩] B nB now2
        = [⟨p, Status.INUSE, A, nA, ts⟩] := by
      unfold reserveUpdate
      rw [List.find?_eq_none.mpr (fun x hx => by
        rw [List.mem_singleton.mp hx]; simp)]
    unfold reserveClone
    rw [hupd, List.find?_eq_none.mpr (fun x hx => by
      rw [List.mem_singleton.mp hx]; simp [hABbeq])]
  · unfold cleanOldClones getOldClones
    rw [List.filter_cons, if_pos hstale]
    show cleanLoop [⟨p, Status.INUSE, A, nA, ts⟩]
        [⟨p, Status.INUSE, A, nA, ts⟩] now = _
    unfold cleanLoop
    have hfree : freeClone [⟨p, Status.INUSE, A, nA, ts⟩]
        ⟨p, Status.INUSE, A, nA, ts⟩ A now
        = .ok [⟨p, Status.FREE, A, nA, now⟩] := by
      unfold freeClone
      rw [setItem_found (List.find?_cons_of_pos _ (by simp))]
      rw [if_neg (by simp)]
      unfold replaceItem
      rw [if_pos (by rw [List.find?_cons_of_pos _ (by simp)]; rfl)]
      simp
    rw [hfree]
    rfl
  · have hupd : reserveUpdate [⟨p, Status.FREE, A, nA, now⟩] B nB now2
        = [⟨p, Status.INUSE, B, nB, now2⟩] := by
      unfold reserveUpdate
      rw [List.find?_cons_of_pos _ (by simp)]
      simp
    unfold reserveClone
    rw [hupd, List.find?_cons_of_pos _ (by simp)]
  · unfold freeClone
    rw [setItem_found (List.find?_cons_of_pos _ (by simp))]
    rw [if_pos (by simp [hBAbne])]

/-- Witness for C4 (amended) at concrete values. -/
theorem reserveClone_stale_reclaim_witness :
    reserveClone [⟨"/t", Status.INUSE, "t1", "n1", 0⟩] "t2" "n2" 10001
      = .error .noAvailable ∧
    cleanOldClones 1800 [⟨"/t", Status.INUSE, "t1", "n1", 0⟩] 10000
      = .ok [⟨"/t", Status.FREE, "t1", "n1", 10000⟩] ∧
    reserveClone [⟨"/t", Status.FREE, "t1", "n1", 10000⟩] "t2" "n2" 10001
      = .ok (⟨"/t", Status.INUSE, "t2", "n2", 10001⟩,
             [⟨"/t", Status.INUSE, "t2", "n2", 10001⟩]) ∧
    freeClone [⟨"/t", Status.INUSE, "t2", "n2", 10001⟩]
        ⟨"/t", Status.INUSE, "t2", "n2", 10001⟩ "t1" 10001
      = .error (.conflict "n2") :=
  reserveClone_stale_reclaim "/t" "t1" "n1" "t2" "n2" 0 1800 10000 10001
    (by decide) (by decide)

/-! ### C8: acquisition with provisioning -/

/-- Point lookup of a freshly appended row. -/
lemma getItem_append_new (r : List Clone) (key : String) (v : Clone)
    (hv : v.path = key)
    (hnone : r.find? (fun c => c.path == key) = none) :
    getItem (r ++ [v]) key = .ok v := by
  unfold getItem
  rw [List.find?_append, hnone, List.find?_cons_of_pos _ (by simp [hv])]
  rfl

/-- `add` on a full, non-stale pool of other paths: `MaxClonesLimitReached`. -/
lemma add_full_noStale (M T : Nat) (r : List Clone) (path task nm : String)
    (now : Nat)
    (hstale : ∀ c ∈ r, isOld T now c = false)
    (hpath : ∀ c ∈ r, c.path ≠ path)
    (hlen : r.length = M) :
    add M T r path task nm now = .error .limitReached := by
  have hnone : r.find? (fun c => c.path == path) = none :=
    (find?_path_none_iff r path).mpr (by
      intro hmem
      obtain ⟨c, hc, hcp⟩ := List.mem_map.mp hmem
      exact hpath c hc hcp)
  unfold add
  rw [if_neg (by simp [hnone]), cleanOldClones_noStale hstale]
  show (if r.length = M then (Except.error RErr.limitReached) else _)
      = Except.error RErr.limitReached
  rw [if_pos hlen]

/-- `add` of a new path on a non-stale pool below the limit registers the
row INUSE with a fresh timestamp and returns it. -/
lemma add_success (M T : Nat) (r : List Clone) (path task nm : String)
    (now : Nat)
    (hstale : ∀ c ∈ r, isOld T now c = false)
    (hpath : ∀ c ∈ r, c.path ≠ path)
    (hlen : r.length ≠ M) :
    add M T r path task nm now =
      .ok (⟨path, Status.INUSE, task, nm, now⟩,
           r ++ [⟨path, Status.INUSE, task, nm, now⟩]) := by
  have hnone : r.find? (fun c => c.path == path) = none :=
    (find?_path_none_iff r path).mpr (by
      intro hmem
      obtain ⟨c, hc, hcp⟩ := List.mem_map.mp hmem
      exact hpath c hc hcp)
  have hset : setItem r path ⟨path, Status.INUSE, task, nm, 0⟩ now
      = .ok (r ++ [⟨path, Status.INUSE, task, nm, now⟩]) := by
    unfold setItem
    rw [hnone]
    show Except.ok (replaceItem r path ⟨path, Status.INUSE, task, nm, 0⟩ now) = _
    unfold replaceItem
    rw [if_neg (by simp [hnone])]
  unfold add
  rw [if_neg (by simp [hnone]), cleanOldClones_noStale hstale]
  show (if r.length = M then (Except.error RErr.limitReached)
        else match setItem r path (⟨path, Status.INUSE, task, nm, 0⟩ : Clone) now with
          | .error e => .error e
          | .ok r3 =>
              match getItem r3 path with
              | .error e => .error e
              | .ok c => .ok (c, r3)) = _
  rw [if_neg hlen, hset]
  show (match getItem (r ++ [(⟨path, Status.INUSE, task, nm, now⟩ : Clone)])
          path with
        | Except.error e => (Except.error e : Except RErr (Clone × List Clone))
        | Except.ok c =>
            Except.ok (c, r ++ [(⟨path, Status.INUSE, task, nm, now⟩ : Clone)])) = _
  rw [getItem_append_new r path ⟨path, Status.INUSE, task, nm, now⟩ rfl hnone]

/-- `give_me_depot` with no provisioned directory available after a
failed reservation: `CloneProvisionError`. -/
lemma giveMeDepot_noFree_none (M T : Nat) (cp : String) (r : List Clone)
    (g n : String) (now : Nat)
    (hres : reserveClone r g n now = .error .noAvailable) :
    giveMeDepot M T cp r g n none now = .error .provisionError := by
  unfold giveMeDepot
  rw [hres]
  rfl

/-- `give_me_depot` after a failed reservation delegates to `add` on the
provisioned directory; an `add` failure propagates as the roster's own
exception (it is *not* converted to `CloneProvisionError`). -/
lemma giveMeDepot_noFree_some (M T : Nat) (cp : String) (r : List Clone)
    (g n p : String) (now : Nat)
    (hres : reserveClone r g n now = .error .noAvailable) :
    giveMeDepot M T cp r g n (some p) now =
      match add M T r p g n now with
      | .ok (_, r3) => .ok (.child p (.root cp), r3)
      | .error e2 => .error (.rosterErr e2) := by
  unfold giveMeDepot
  rw [hres]
  rfl

/-- Counterexample to C8 as claimed: on a full one-slot pool (one fresh
INUSE record), `give_me_depot` with a successfully provisioned directory
`/b` fails with the roster's `MaxClonesLimitReached` — a `RosterError`
raised inside the `except RosterError` handler — not with
`CloneProvisionError`. -/
theorem giveMeDepot_limit_counterexample :
    giveMeDepot 1 1800 "/cache" [⟨"/a", Status.INUSE, "t1", "n1", 100⟩]
        "t2" "n2" (some "/b") 200
      = .error (.rosterErr .limitReached) ∧
    MgrErr.rosterErr RErr.limitReached ≠ MgrErr.provisionError :=
  ⟨rfl, by decide⟩

/-- **C8 (amended).** Acquisition when the ledger has no FREE record (and
the clock is ahead of every stored timestamp, none stale, the provisioned
path fresh): if directory creation or initialization fails the
acquisition fails with `CloneProvisionError`; if the ledger rejects the
`add` because the pool is full it fails with the ledger's
`MaxClonesLimitReached` (a `RosterError`, not `CloneProvisionError`);
otherwise the fresh directory is registered INUSE via `add` and returned
as a depot whose parent is the root cache. -/
theorem giveMeDepot_provisioning (M T : Nat) (cp : String) (r : List Clone)
    (g n p : String) (now : Nat)
    (hfree : ∀ c ∈ r, c.status = Status.INUSE)
    (hfresh : ∀ c ∈ r, c.timestamp < now)
    (hstale : ∀ c ∈ r, isOld T now c = false)
    (hpath : ∀ c ∈ r, c.path ≠ p) :
    (giveMeDepot M T cp r g n none now = .error .provisionError) ∧
    (r.length = M →
      giveMeDepot M T cp r g n (some p) now
        = .error (.rosterErr .limitReached)) ∧
    (r.length < M → ∃ r3,
      giveMeDepot M T cp r g n (some p) now
        = .ok (.child p (.root cp), r3) ∧
      getItem r3 p = .ok ⟨p, Status.INUSE, g, n, now⟩) := by
  have hres : reserveClone r g n now = .error .noAvailable :=
    reserveClone_noFree r g n now
      (fun c hc => by rw [hfree c hc]; exact fun h => Status.noConfusion h)
      (fun c hc => Nat.ne_of_lt (hfresh c hc))
  refine ⟨giveMeDepot_noFree_none M T cp r g n now hres, ?_, ?_⟩
  · intro hlen
    rw [giveMeDepot_noFree_some M T cp r g n p now hres,
        add_full_noStale M T r p g n now hstale hpath hlen]
  · intro hlen
    refine ⟨r ++ [⟨p, Status.INUSE, g, n, now⟩], ?_, ?_⟩
    · rw [giveMeDepot_noFree_some M T cp r g n p now hres,
          add_success M T r p g n now hstale hpath (Nat.ne_of_lt hlen)]
    · exact getItem_append_new r p ⟨p, Status.INUSE, g, n, now⟩ rfl
        ((find?_path_none_iff r p).mpr (by
          intro hmem
          obtain ⟨c, hc, hcp⟩ := List.mem_map.mp hmem
          exact hpath c hc hcp))

/-- Witness for C8 (amended) on a full one-slot pool. -/
theorem giveMeDepot_provisioning_witness :
    giveMeDepot 1 1800 "/cache" [⟨"/a", Status.INUSE, "t1", "n1", 100⟩]
        "t2" "n2" none 200 = .error .provisionError ∧
    giveMeDepot 1 1800 "/cache" [⟨"/a", Status.INUSE, "t1", "n1", 100⟩]
        "t2" "n2" (some "/b") 200 = .error (.rosterErr .limitReached) :=
  ⟨(giveMeDepot_provisioning 1 1800 "/cache"
      [⟨"/a", Status.INUSE, "t1", "n1", 100⟩] "t2" "n2" "/b" 200
      (by decide) (by decide) (by decide) (by decide)).1,
   (giveMeDepot_provisioning 1 1800 "/cache"
      [⟨"/a", Status.INUSE, "t1", "n1", 100⟩] "t2" "n2" "/b" 200
      (by decide) (by decide) (by decide) (by decide)).2.1 rfl⟩

/-! ### C10: orchestrator-level release is not idempotent -/

/-- Reduction of `free_depot` when the in-use lookup yields `None`. -/
lemma freeDepot_snd_none {r : List Clone} {path task : String} {now : Nat}
    (h : getNotAvailableClone r path = none) :
    (freeDepot r path task now).2 = .error .attrErrNone := by
  unfold freeDepot
  rw [h]

/-- Reduction of `free_depot` when the in-use lookup finds a row. -/
lemma freeDepot_snd_some {r : List Clone} {path task : String} {now : Nat}
    {c : Clone} (h : getNotAvailableClone r path = some c) :
    (freeDepot r path task now).2 =
      match freeClone r c task now with
      | .ok r2 => .ok r2
      | .error e => .error (.rosterErr e) := by
  unfold freeDepot
  rw [h]

/-- **C10.** `free_depot(depot, task)` succeeds only when the roster
holds an INUSE record for the depot's path.  The backend clear of the
working tree always runs (first, before the roster lookup).  If the
record is absent, or present but FREE, the in-use lookup returns `None`
and `free_depot` fails with the `AttributeError` from `None.task` — an
error distinct from the roster's `Conflict` — even though the
ledger-level `free_clone` on the FREE record itself would succeed: the
orchestrator-level release is not idempotent although the ledger-level
free is. -/
theorem freeDepot_not_idempotent (r : List Clone) (path task : String)
    (now : Nat) (hnodup : (r.map Clone.path).Nodup) :
    ((freeDepot r path task now).1 = [path]) ∧
    (getItem r path = .error (.keyError path) →
        (freeDepot r path task now).2 = .error .attrErrNone) ∧
    (∀ c, getItem r path = .ok c → c.status = Status.FREE →
        (freeDepot r path task now).2 = .error .attrErrNone ∧
        (∀ e, (freeDepot r path task now).2 ≠ .error (.rosterErr (.conflict e))) ∧
        ∃ r2, freeClone r c task now = .ok r2) ∧
    (∀ r2, (freeDepot r path task now).2 = .ok r2 →
        ∃ c, getNotAvailableClone r path = some c ∧
          c.status = Status.INUSE ∧ c.path = path) := by
  refine ⟨rfl, ?_, ?_, ?_⟩
  · intro h
    have hnone : r.find? (fun c => c.path == path) = none := by
      cases hf : r.find? (fun c => c.path == path) with
      | none => rfl
      | some c =>
          unfold getItem at h
          rw [hf] at h
          exact Except.noConfusion h
    apply freeDepot_snd_none
    unfold getNotAvailableClone
    refine List.find?_eq_none.mpr (fun x hx => ?_)
    exact List.find?_eq_none.mp hnone x (List.mem_of_mem_filter hx)
  · intro c h hstat
    have hf := getItem_ok_find? h
    have hcp : c.path = path := by simpa using List.find?_some hf
    have hcmem : c ∈ r := List.mem_of_find?_eq_some hf
    have hna : getNotAvailableClone r path = none := by
      unfold getNotAvailableClone
      refine List.find?_eq_none.mpr (fun x hx hbeq => ?_)
      have hxr : x ∈ r := List.mem_of_mem_filter hx
      have hxst : (x.status == Status.INUSE) = true := by
        unfold getNotAvailable at hx
        exact (List.mem_filter.mp hx).2
      have hxp : x.path = c.path := by rw [hcp]; simpa using hbeq
      have hxc : x = c :=
        List.inj_on_of_nodup_map hnodup hxr hcmem hxp
      rw [hxc, hstat] at hxst
      exact Bool.noConfusion hxst
    refine ⟨freeDepot_snd_none hna, ?_, ?_⟩
    · intro e
      rw [freeDepot_snd_none hna]
      exact fun hh => MgrErr.noConfusion (Except.error.inj hh)
    · subst hcp
      refine ⟨replaceItem r c.path
        { c with task := task, status := Status.FREE } now, ?_⟩
      unfold freeClone
      rw [setItem_found hf, if_neg (by rw [hstat]; simp)]
  · intro r2 h
    cases hna : getNotAvailableClone r path with
    | none =>
        rw [freeDepot_snd_none hna] at h
        exact Except.noConfusion h
    | some c =>
        refine ⟨c, rfl, ?_, ?_⟩
        · have hmem : c ∈ getNotAvailable r := by
            unfold getNotAvailableClone at hna
            exact List.mem_of_find?_eq_some hna
          unfold getNotAvailable at hmem
          simpa using (List.mem_filter.mp hmem).2
        · unfold getNotAvailableClone at hna
          simpa using List.find?_some hna

/-- Witness for C10 at a one-row FREE ledger: the orchestrator release
fails with the `AttributeError` while the ledger free succeeds. -/
theorem freeDepot_not_idempotent_witness :
    (freeDepot [⟨"/a", Status.FREE, "t1", "n1", 3⟩] "/a" "t1" 9).2
        = .error .attrErrNone ∧
    (∀ e, (freeDepot [⟨"/a", Status.FREE, "t1", "n1", 3⟩] "/a" "t1" 9).2
        ≠ .error (.rosterErr (.conflict e))) ∧
    ∃ r2, freeClone [⟨"/a", Status.FREE, "t1", "n1", 3⟩]
        ⟨"/a", Status.FREE, "t1", "n1", 3⟩ "t1" 9 = .ok r2 :=
  (freeDepot_not_idempotent [⟨"/a", Status.FREE, "t1", "n1", 3⟩] "/a" "t1" 9
      (by decide)).2.2.1 ⟨"/a", Status.FREE, "t1", "n1", 3⟩ rfl rfl

end Repoman
